import Mathlib

/-!
Verification development for the Credex credit protocol.

The on-chain part (contracts/src/CredexPool.sol) is embedded as a state
machine over a finite address space `Fin n`.  Solidity ^0.8 arithmetic is
checked: additions and multiplications revert on overflow past 2^256,
subtractions revert on underflow, division reverts on a zero divisor.
Reverts are modelled with `Except Err`; a reverted call leaves the state
unchanged.  ERC-20 token transfers are external to the repository and are
treated as always succeeding; `msg.sender` authorization modifiers
(`onlyAgent`, `onlyOwner`) restrict who may call but not what a call does
to the state, so they are not modelled.

The off-chain orchestration (agent/src/types.ts) works with JavaScript
`bigint` (arbitrary precision, modelled as `ℕ`) and floating-point
reputation factors (modelled as `ℚ`).
-/

namespace Credex

/-- Solidity uint256 bound. -/
def U256 : ℕ := 2 ^ 256

/-- Revert reasons of `CredexPool.sol`, one constructor per `require`
message, plus `arith` for the checked-arithmetic panic of Solidity ^0.8. -/
inductive Err where
  | zeroAmount                 -- "Zero amount" (deposit)
  | zeroShares                 -- "Zero shares" (withdraw)
  | insufficientShares         -- "Insufficient shares" (withdraw)
  | insufficientPoolLiquidity  -- "Insufficient pool liquidity" (withdraw)
  | alreadyOnboarded           -- "Already onboarded" (onboardAgent)
  | notActive                  -- "Not active"
  | accountFrozen              -- "Account frozen" (borrow)
  | exceedsLimit               -- "Exceeds limit" (borrow)
  | insufficientLiquidity      -- "Insufficient liquidity" (borrow)
  | arith                      -- checked-arithmetic panic
deriving DecidableEq, Repr

/-- Checked uint256 addition. -/
def uadd (a b : ℕ) : Except Err ℕ :=
  if a + b < U256 then .ok (a + b) else .error .arith

/-- Checked uint256 subtraction. -/
def usub (a b : ℕ) : Except Err ℕ :=
  if b ≤ a then .ok (a - b) else .error .arith

/-- Checked uint256 multiplication. -/
def umul (a b : ℕ) : Except Err ℕ :=
  if a * b < U256 then .ok (a * b) else .error .arith

/-- uint256 division; Solidity reverts on a zero divisor. -/
def udiv (a b : ℕ) : Except Err ℕ :=
  if b = 0 then .error .arith else .ok (a / b)

theorem uadd_ok_iff {a b c : ℕ} : uadd a b = .ok c ↔ a + b < U256 ∧ c = a + b := by
  unfold uadd; split <;> simp_all [eq_comm]

theorem usub_ok_iff {a b c : ℕ} : usub a b = .ok c ↔ b ≤ a ∧ c = a - b := by
  unfold usub; split <;> simp_all [eq_comm]

theorem umul_ok_iff {a b c : ℕ} : umul a b = .ok c ↔ a * b < U256 ∧ c = a * b := by
  unfold umul; split <;> simp_all [eq_comm]

theorem udiv_ok_iff {a b c : ℕ} : udiv a b = .ok c ↔ b ≠ 0 ∧ c = a / b := by
  unfold udiv; split <;> simp_all [eq_comm]

deriving instance DecidableEq for Except

theorem bind_ok_iff {α β : Type} {m : Except Err α} {f : α → Except Err β} {b : β} :
    (m >>= f) = .ok b ↔ ∃ a, m = .ok a ∧ f a = .ok b := by
  cases m <;> simp [Bind.bind, Except.bind]

/-- `struct AgentAccount` of CredexPool.sol. -/
structure AgentAccount where
  debt : ℕ
  principal : ℕ
  creditLimit : ℕ
  lastAccrued : ℕ
  lastRepayment : ℕ
  frozen : Bool
  active : Bool
deriving DecidableEq, Repr

/-- Contract storage of CredexPool.sol, over an address space `Fin n`. -/
structure PoolState (n : ℕ) where
  agents : Fin n → AgentAccount
  lpShares : Fin n → ℕ
  totalShares : ℕ
  totalLiquidity : ℕ
  globalTotalDebt : ℕ

/-- `INTEREST_RATE_BP = 10` (0.1% per interval). -/
def INTEREST_RATE_BP : ℕ := 10

/-- `ACCRUAL_INTERVAL = 1 minutes` (60 seconds). -/
def ACCRUAL_INTERVAL : ℕ := 60

/-- `totalDebt()` returns the `globalTotalDebt` tracker. -/
def totalDebt {n : ℕ} (s : PoolState n) : ℕ := s.globalTotalDebt

/-- `totalAssets()` = `totalLiquidity + totalDebt()` (checked add). -/
def totalAssets {n : ℕ} (s : PoolState n) : Except Err ℕ :=
  uadd s.totalLiquidity (totalDebt s)

/-- `deposit(uint256 assets)`: mint shares against deposited assets.
Returns the new state together with the shares minted (the value emitted
in `LiquidityDeposited`). -/
def deposit {n : ℕ} (s : PoolState n) (sender : Fin n) (assets : ℕ) :
    Except Err (PoolState n × ℕ) :=
  if assets = 0 then .error .zeroAmount else do
    let ta ← totalAssets s
    let shares ←
      if s.totalShares = 0 then .ok assets
      else do
        let p ← umul assets s.totalShares
        udiv p ta
    let newLp ← uadd (s.lpShares sender) shares
    let newTS ← uadd s.totalShares shares
    let newTL ← uadd s.totalLiquidity assets
    .ok ({ s with
        lpShares := Function.update s.lpShares sender newLp,
        totalShares := newTS,
        totalLiquidity := newTL }, shares)

/-- `withdraw(uint256 shares)`: burn shares for assets.  Returns the new
state together with the assets released. -/
def withdraw {n : ℕ} (s : PoolState n) (sender : Fin n) (shares : ℕ) :
    Except Err (PoolState n × ℕ) :=
  if shares = 0 then .error .zeroShares
  else if s.lpShares sender < shares then .error .insufficientShares
  else do
    let ta ← totalAssets s
    let p ← umul shares ta
    let assets ← udiv p s.totalShares
    if s.totalLiquidity < assets then .error .insufficientPoolLiquidity
    else do
      let newTS ← usub s.totalShares shares
      .ok ({ s with
          lpShares := Function.update s.lpShares sender (s.lpShares sender - shares),
          totalShares := newTS,
          totalLiquidity := s.totalLiquidity - assets }, assets)

/-- `onboardAgent(address agent, uint256 creditLimit)`; `now` is
`block.timestamp`. -/
def onboardAgent {n : ℕ} (s : PoolState n) (agent : Fin n) (creditLimit now : ℕ) :
    Except Err (PoolState n) :=
  if (s.agents agent).active then .error .alreadyOnboarded
  else .ok { s with
      agents := Function.update s.agents agent
        { debt := 0, principal := 0, creditLimit := creditLimit,
          lastAccrued := now, lastRepayment := now,
          frozen := false, active := true } }

/-- `setCreditLimit(address agent, uint256 newLimit)`. -/
def setCreditLimit {n : ℕ} (s : PoolState n) (agent : Fin n) (newLimit : ℕ) :
    Except Err (PoolState n) :=
  if (s.agents agent).active then
    .ok { s with
        agents := Function.update s.agents agent
          { s.agents agent with creditLimit := newLimit } }
  else .error .notActive

/-- `_accrueInterest(address agent)`: lazy interest accrual on one
account.  Returns the updated account together with the interest added
(the caller adds it to `globalTotalDebt`). -/
def accrueInterest (acc : AgentAccount) (now : ℕ) : Except Err (AgentAccount × ℕ) :=
  if acc.lastAccrued = 0 ∨ acc.debt = 0 then .ok (acc, 0)
  else do
    let elapsed ← usub now acc.lastAccrued
    let intervals := elapsed / ACCRUAL_INTERVAL
    if intervals = 0 then .ok (acc, 0)
    else do
      let p1 ← umul acc.debt INTEREST_RATE_BP
      let p2 ← umul p1 intervals
      let interest := p2 / 10000
      let newDebt ← uadd acc.debt interest
      let step ← umul intervals ACCRUAL_INTERVAL
      let newLA ← uadd acc.lastAccrued step
      .ok ({ acc with debt := newDebt, lastAccrued := newLA }, interest)

/-- `borrow(address agent, uint256 amount)`. -/
def borrow {n : ℕ} (s : PoolState n) (agent : Fin n) (amount now : ℕ) :
    Except Err (PoolState n) :=
  if !(s.agents agent).active then .error .notActive
  else if (s.agents agent).frozen then .error .accountFrozen
  else do
    let (acc1, interest) ← accrueInterest (s.agents agent) now
    let gtd1 ← uadd s.globalTotalDebt interest
    let pa ← uadd acc1.principal amount
    if acc1.creditLimit < pa then .error .exceedsLimit
    else if s.totalLiquidity < amount then .error .insufficientLiquidity
    else do
      let newDebt ← uadd acc1.debt amount
      let gtd2 ← uadd gtd1 amount
      .ok { s with
          agents := Function.update s.agents agent
            { acc1 with principal := pa, debt := newDebt },
          totalLiquidity := s.totalLiquidity - amount,
          globalTotalDebt := gtd2 }

/-- `repay(address agent, uint256 amount)`. -/
def repay {n : ℕ} (s : PoolState n) (agent : Fin n) (amount now : ℕ) :
    Except Err (PoolState n) :=
  if !(s.agents agent).active then .error .notActive
  else do
    let (acc1, interest) ← accrueInterest (s.agents agent) now
    let gtd1 ← uadd s.globalTotalDebt interest
    let amt := if acc1.debt < amount then acc1.debt else amount
    let interestOwed ← usub acc1.debt acc1.principal
    let acc2 ←
      if amt ≤ interestOwed then do
        let d ← usub acc1.debt amt
        .ok { acc1 with debt := d }
      else do
        let principalRepaid ← usub amt interestOwed
        let d ← usub acc1.debt amt
        let p ← usub acc1.principal principalRepaid
        .ok { acc1 with debt := d, principal := p }
    let gtd2 ← usub gtd1 amt
    let newTL ← uadd s.totalLiquidity amt
    .ok { s with
        agents := Function.update s.agents agent
          { acc2 with lastRepayment := now },
        totalLiquidity := newTL,
        globalTotalDebt := gtd2 }

/-- Contract-level accrual as it occurs inside `borrow`/`repay`: update
the account and fold the interest into `globalTotalDebt`. -/
def accrue {n : ℕ} (s : PoolState n) (agent : Fin n) (now : ℕ) :
    Except Err (PoolState n) := do
  let (acc1, interest) ← accrueInterest (s.agents agent) now
  let gtd ← uadd s.globalTotalDebt interest
  .ok { s with
      agents := Function.update s.agents agent acc1,
      globalTotalDebt := gtd }

/-- `freeze(address agent)`. -/
def freeze {n : ℕ} (s : PoolState n) (agent : Fin n) : Except Err (PoolState n) :=
  if (s.agents agent).active then
    .ok { s with
        agents := Function.update s.agents agent
          { s.agents agent with frozen := true } }
  else .error .notActive

/-- `unfreeze(address agent)`. -/
def unfreeze {n : ℕ} (s : PoolState n) (agent : Fin n) : Except Err (PoolState n) :=
  if (s.agents agent).active then
    .ok { s with
        agents := Function.update s.agents agent
          { s.agents agent with frozen := false } }
  else .error .notActive

/-- `availableCredit(address agent)`. -/
def availableCredit (acc : AgentAccount) : ℕ :=
  if !acc.active || acc.frozen then 0
  else if acc.creditLimit ≤ acc.principal then 0
  else acc.creditLimit - acc.principal

/-- An external call against the pool (the `now` arguments are the
`block.timestamp` at which the transaction executes). -/
inductive Op (n : ℕ) where
  | deposit (sender : Fin n) (assets : ℕ)
  | withdraw (sender : Fin n) (shares : ℕ)
  | onboardAgent (agent : Fin n) (creditLimit now : ℕ)
  | setCreditLimit (agent : Fin n) (newLimit : ℕ)
  | borrow (agent : Fin n) (amount now : ℕ)
  | repay (agent : Fin n) (amount now : ℕ)
  | accrue (agent : Fin n) (now : ℕ)
  | freeze (agent : Fin n)
  | unfreeze (agent : Fin n)

def applyOp {n : ℕ} (s : PoolState n) : Op n → Except Err (PoolState n)
  | .deposit sender assets => do
      let (s2, _) ← deposit s sender assets
      .ok s2
  | .withdraw sender shares => do
      let (s2, _) ← withdraw s sender shares
      .ok s2
  | .onboardAgent agent creditLimit now => onboardAgent s agent creditLimit now
  | .setCreditLimit agent newLimit => setCreditLimit s agent newLimit
  | .borrow agent amount now => borrow s agent amount now
  | .repay agent amount now => repay s agent amount now
  | .accrue agent now => accrue s agent now
  | .freeze agent => freeze s agent
  | .unfreeze agent => unfreeze s agent

/-- A reverted transaction leaves the contract storage unchanged. -/
def stepOp {n : ℕ} (s : PoolState n) (op : Op n) : PoolState n :=
  match applyOp s op with
  | .ok s2 => s2
  | .error _ => s

/-- Contract storage right after deployment: no accounts, no shares. -/
def initState (n : ℕ) : PoolState n :=
  { agents := fun _ =>
      { debt := 0, principal := 0, creditLimit := 0, lastAccrued := 0,
        lastRepayment := 0, frozen := false, active := false },
    lpShares := fun _ => 0,
    totalShares := 0, totalLiquidity := 0, globalTotalDebt := 0 }

/-- Run a finite sequence of operations from the empty pool. -/
def runOps (n : ℕ) (ops : List (Op n)) : PoolState n :=
  ops.foldl stepOp (initState n)

/-- Sum of the LP shares of all providers. -/
def sumShares {n : ℕ} (s : PoolState n) : ℕ := ∑ a, s.lpShares a

/-- Sum of the debt of all agents. -/
def sumDebt {n : ℕ} (s : PoolState n) : ℕ := ∑ a, (s.agents a).debt

/-- The conservation / bookkeeping invariant of the pool. -/
structure Inv {n : ℕ} (s : PoolState n) : Prop where
  shares_eq : sumShares s = s.totalShares
  debt_eq : sumDebt s = s.globalTotalDebt
  debt_ge : ∀ a, (s.agents a).principal ≤ (s.agents a).debt
  inactive_zero : ∀ a, (s.agents a).active = false →
    (s.agents a).debt = 0 ∧ (s.agents a).principal = 0

theorem sum_update_nat {n : ℕ} (f : Fin n → ℕ) (x : Fin n) (v : ℕ) :
    (∑ a, Function.update f x v a) + f x = (∑ a, f a) + v := by
  rw [Finset.sum_update_of_mem (Finset.mem_univ x),
    Finset.sum_eq_sum_diff_singleton_add (Finset.mem_univ x) f]
  omega

theorem sum_debt_update {n : ℕ} (f : Fin n → AgentAccount) (x : Fin n)
    (acc : AgentAccount) :
    (∑ a, (Function.update f x acc a).debt) + (f x).debt
      = (∑ a, (f a).debt) + acc.debt := by
  have h : ∀ a, (Function.update f x acc a).debt
      = Function.update (fun a => (f a).debt) x acc.debt a := by
    intro a
    by_cases hax : a = x <;> simp [Function.update_apply, hax]
  rw [Finset.sum_congr rfl fun a _ => h a]
  exact sum_update_nat (fun a => (f a).debt) x acc.debt

theorem single_le_sum_nat {n : ℕ} (f : Fin n → ℕ) (x : Fin n) :
    f x ≤ ∑ a, f a :=
  Finset.single_le_sum (fun a _ => Nat.zero_le (f a)) (Finset.mem_univ x)

/-- Everything `_accrueInterest` does to the fields other than
`lastAccrued`: on success the debt grows by exactly the returned
interest and all the remaining fields are untouched. -/
theorem accrueInterest_spec {acc acc2 : AgentAccount} {now i : ℕ}
    (h : accrueInterest acc now = .ok (acc2, i)) :
    acc2.debt = acc.debt + i ∧
    acc2.principal = acc.principal ∧
    acc2.creditLimit = acc.creditLimit ∧
    acc2.lastRepayment = acc.lastRepayment ∧
    acc2.frozen = acc.frozen ∧
    acc2.active = acc.active ∧
    (acc.debt = 0 → i = 0) := by
  unfold accrueInterest at h
  split at h
  · simp only [Except.ok.injEq, Prod.mk.injEq] at h
    obtain ⟨rfl, rfl⟩ := h
    simp
  · rename_i hcond
    simp only [bind_ok_iff, usub_ok_iff, umul_ok_iff, uadd_ok_iff,
      Except.ok.injEq, Prod.mk.injEq] at h
    obtain ⟨e, ⟨he, rfl⟩, h⟩ := h
    split at h
    · simp only [Except.ok.injEq, Prod.mk.injEq] at h
      obtain ⟨rfl, rfl⟩ := h
      simp
    · simp only [bind_ok_iff, usub_ok_iff, umul_ok_iff, uadd_ok_iff,
        Except.ok.injEq, Prod.mk.injEq] at h
      obtain ⟨p1, ⟨hp1, rfl⟩, p2, ⟨hp2, rfl⟩, d, ⟨hd, rfl⟩, st, ⟨hst, rfl⟩,
        la, ⟨hla, rfl⟩, rfl, rfl⟩ := h
      simp only [true_and, and_true, eq_self_iff_true]
      exact fun h0 => absurd (Or.inr h0) hcond

theorem inv_mint {n : ℕ} {s : PoolState n} (sender : Fin n) (sh tl : ℕ)
    (hI : Inv s) :
    Inv { s with
        lpShares := Function.update s.lpShares sender (s.lpShares sender + sh),
        totalShares := s.totalShares + sh,
        totalLiquidity := tl } := by
  have hsum := sum_update_nat s.lpShares sender (s.lpShares sender + sh)
  have hsh_eq := hI.shares_eq
  refine ⟨?_, hI.debt_eq, hI.debt_ge, hI.inactive_zero⟩
  simp only [sumShares] at hsh_eq ⊢
  omega

theorem inv_deposit {n : ℕ} {s s2 : PoolState n} {sender : Fin n}
    {assets sh : ℕ} (h : deposit s sender assets = .ok (s2, sh))
    (hI : Inv s) : Inv s2 := by
  unfold deposit at h
  split at h
  · exact Except.noConfusion h
  · simp only [bind_ok_iff, totalAssets, totalDebt, uadd_ok_iff,
      Except.ok.injEq, Prod.mk.injEq] at h
    obtain ⟨ta, ⟨hta, rfl⟩, h⟩ := h
    split at h
    · simp only [bind_ok_iff, uadd_ok_iff, Except.ok.injEq, Prod.mk.injEq] at h
      obtain ⟨y, rfl, lp, ⟨hl1, rfl⟩, ts, ⟨ht1, rfl⟩, tl, ⟨hw1, rfl⟩,
        hstate, hval⟩ := h
      subst hstate
      exact inv_mint sender _ _ hI
    · simp only [bind_ok_iff, uadd_ok_iff, umul_ok_iff, udiv_ok_iff,
        Except.ok.injEq, Prod.mk.injEq] at h
      obtain ⟨p, ⟨hp1, rfl⟩, y, ⟨hdv1, rfl⟩, lp, ⟨hl1, rfl⟩, ts, ⟨ht1, rfl⟩,
        tl, ⟨hw1, rfl⟩, hstate, hval⟩ := h
      subst hstate
      exact inv_mint sender _ _ hI

theorem inv_withdraw {n : ℕ} {s s2 : PoolState n} {sender : Fin n}
    {shares assets : ℕ} (h : withdraw s sender shares = .ok (s2, assets))
    (hI : Inv s) : Inv s2 := by
  unfold withdraw at h
  split at h
  · exact Except.noConfusion h
  · split at h
    · exact Except.noConfusion h
    · rename_i hzero hbal
      simp only [bind_ok_iff, totalAssets, totalDebt, uadd_ok_iff, umul_ok_iff,
        udiv_ok_iff, Except.ok.injEq, Prod.mk.injEq] at h
      obtain ⟨ta, ⟨hta, rfl⟩, p, ⟨hp, rfl⟩, av, ⟨hts0, rfl⟩, h⟩ := h
      split at h
      · exact Except.noConfusion h
      · simp only [bind_ok_iff, usub_ok_iff, Except.ok.injEq, Prod.mk.injEq] at h
        obtain ⟨ts, ⟨htsle, rfl⟩, rfl, rfl⟩ := h
        have hsum := sum_update_nat s.lpShares sender (s.lpShares sender - shares)
        have hsh_eq := hI.shares_eq
        have hle := single_le_sum_nat s.lpShares sender
        refine ⟨?_, hI.debt_eq, hI.debt_ge, hI.inactive_zero⟩
        simp only [sumShares] at hsh_eq ⊢
        omega

theorem inv_field_update {n : ℕ} {s : PoolState n} {x : Fin n}
    {acc2 : AgentAccount} (hI : Inv s)
    (hd : acc2.debt = (s.agents x).debt)
    (hp : acc2.principal = (s.agents x).principal)
    (ha : acc2.active = true) :
    Inv { s with agents := Function.update s.agents x acc2 } := by
  have hsum := sum_debt_update s.agents x acc2
  have hdeq := hI.debt_eq
  refine ⟨hI.shares_eq, ?_, ?_, ?_⟩
  · simp only [sumDebt] at hdeq ⊢
    omega
  · intro a
    by_cases hax : a = x
    · subst hax
      simp only [Function.update_same, hd, hp]
      exact hI.debt_ge a
    · simp only [Function.update_noteq hax]
      exact hI.debt_ge a
  · intro a
    by_cases hax : a = x
    · subst hax
      simp only [Function.update_same, ha]
      intro hfalse
      exact absurd hfalse (by simp)
    · simp only [Function.update_noteq hax]
      exact hI.inactive_zero a

theorem inv_setCreditLimit {n : ℕ} {s s2 : PoolState n} {agent : Fin n}
    {newLimit : ℕ} (h : setCreditLimit s agent newLimit = .ok s2)
    (hI : Inv s) : Inv s2 := by
  unfold setCreditLimit at h
  split at h
  · rename_i hact
    simp only [Except.ok.injEq] at h
    subst h
    exact inv_field_update hI rfl rfl hact
  · exact Except.noConfusion h

theorem inv_freeze {n : ℕ} {s s2 : PoolState n} {agent : Fin n}
    (h : freeze s agent = .ok s2) (hI : Inv s) : Inv s2 := by
  unfold freeze at h
  split at h
  · rename_i hact
    simp only [Except.ok.injEq] at h
    subst h
    exact inv_field_update hI rfl rfl hact
  · exact Except.noConfusion h

theorem inv_unfreeze {n : ℕ} {s s2 : PoolState n} {agent : Fin n}
    (h : unfreeze s agent = .ok s2) (hI : Inv s) : Inv s2 := by
  unfold unfreeze at h
  split at h
  · rename_i hact
    simp only [Except.ok.injEq] at h
    subst h
    exact inv_field_update hI rfl rfl hact
  · exact Except.noConfusion h

theorem inv_onboardAgent {n : ℕ} {s s2 : PoolState n} {agent : Fin n}
    {creditLimit now : ℕ} (h : onboardAgent s agent creditLimit now = .ok s2)
    (hI : Inv s) : Inv s2 := by
  unfold onboardAgent at h
  split at h
  · exact Except.noConfusion h
  · rename_i hact
    simp only [Except.ok.injEq] at h
    subst h
    have hact2 : (s.agents agent).active = false := by
      revert hact
      cases (s.agents agent).active <;> simp
    have hzero := hI.inactive_zero agent hact2
    have hsum := sum_debt_update s.agents agent
      { debt := 0, principal := 0, creditLimit := creditLimit,
        lastAccrued := now, lastRepayment := now, frozen := false, active := true }
    have hdeq := hI.debt_eq
    simp only at hsum
    refine ⟨hI.shares_eq, ?_, ?_, ?_⟩
    · simp only [sumDebt] at hdeq ⊢
      omega
    · intro a
      by_cases hax : a = agent
      · subst hax
        simp [Function.update_same]
      · simp only [Function.update_noteq hax]
        exact hI.debt_ge a
    · intro a
      by_cases hax : a = agent
      · subst hax
        simp [Function.update_same]
      · simp only [Function.update_noteq hax]
        exact hI.inactive_zero a

theorem inv_accrue {n : ℕ} {s s2 : PoolState n} {agent : Fin n} {now : ℕ}
    (h : accrue s agent now = .ok s2) (hI : Inv s) : Inv s2 := by
  unfold accrue at h
  simp only [bind_ok_iff, uadd_ok_iff, Except.ok.injEq] at h
  obtain ⟨⟨acc1, i⟩, hacc, gtd, ⟨hg1, rfl⟩, hstate⟩ := h
  simp only at hg1 hstate
  subst hstate
  obtain ⟨ha1, ha2, ha3, ha4, ha5, ha6, ha7⟩ := accrueInterest_spec hacc
  have hsum := sum_debt_update s.agents agent acc1
  have hdeq := hI.debt_eq
  have hge := hI.debt_ge agent
  refine ⟨hI.shares_eq, ?_, ?_, ?_⟩
  · simp only [sumDebt] at hdeq ⊢
    omega
  · intro a
    by_cases hax : a = agent
    · subst hax
      simp only [Function.update_same, ha1, ha2]
      omega
    · simp only [Function.update_noteq hax]
      exact hI.debt_ge a
  · intro a
    by_cases hax : a = agent
    · subst hax
      simp only [Function.update_same, ha6]
      intro hfalse
      obtain ⟨hz1, hz2⟩ := hI.inactive_zero a hfalse
      refine ⟨?_, by rw [ha2]; exact hz2⟩
      rw [ha1, hz1, ha7 hz1]
    · simp only [Function.update_noteq hax]
      exact hI.inactive_zero a

theorem inv_borrow {n : ℕ} {s s2 : PoolState n} {agent : Fin n}
    {amount now : ℕ} (h : borrow s agent amount now = .ok s2)
    (hI : Inv s) : Inv s2 := by
  unfold borrow at h
  split at h
  · exact Except.noConfusion h
  · split at h
    · exact Except.noConfusion h
    · rename_i hna hnf
      have hact : (s.agents agent).active = true := by
        revert hna
        cases (s.agents agent).active <;> simp
      simp only [bind_ok_iff, uadd_ok_iff, Except.ok.injEq] at h
      obtain ⟨⟨acc1, i⟩, hacc, gtd1, ⟨hg1, rfl⟩, pa, ⟨hpa, rfl⟩, h⟩ := h
      try simp only at hg1 hpa h
      split at h
      · exact Except.noConfusion h
      · split at h
        · exact Except.noConfusion h
        · simp only [bind_ok_iff, uadd_ok_iff, Except.ok.injEq] at h
          obtain ⟨nd, ⟨hnd, rfl⟩, g2, ⟨hg2, rfl⟩, hstate⟩ := h
          subst hstate
          obtain ⟨ha1, ha2, ha3, ha4, ha5, ha6, ha7⟩ := accrueInterest_spec hacc
          have hsum := sum_debt_update s.agents agent
            { acc1 with principal := acc1.principal + amount, debt := acc1.debt + amount }
          try simp only at hsum
          have hdeq := hI.debt_eq
          have hge := hI.debt_ge agent
          refine ⟨hI.shares_eq, ?_, ?_, ?_⟩
          · simp only [sumDebt] at hdeq ⊢
            omega
          · intro a
            by_cases hax : a = agent
            · subst hax
              simp only [Function.update_same]
              try simp only at hge ⊢
              omega
            · simp only [Function.update_noteq hax]
              exact hI.debt_ge a
          · intro a
            by_cases hax : a = agent
            · subst hax
              simp only [Function.update_same]
              intro hfalse
              try simp only at hfalse
              rw [ha6, hact] at hfalse
              exact absurd hfalse (by simp)
            · simp only [Function.update_noteq hax]
              exact hI.inactive_zero a

theorem inv_account_update {n : ℕ} {s : PoolState n} {x : Fin n}
    {acc2 : AgentAccount} {tl g2 : ℕ} (hI : Inv s)
    (hdsum : acc2.debt + s.globalTotalDebt = (s.agents x).debt + g2)
    (hpd : acc2.principal ≤ acc2.debt)
    (ha : acc2.active = true) :
    Inv { s with
        agents := Function.update s.agents x acc2,
        totalLiquidity := tl,
        globalTotalDebt := g2 } := by
  have hsum := sum_debt_update s.agents x acc2
  have hdeq := hI.debt_eq
  refine ⟨hI.shares_eq, ?_, ?_, ?_⟩
  · simp only [sumDebt] at hdeq ⊢
    omega
  · intro a
    by_cases hax : a = x
    · subst hax
      simp only [Function.update_same]
      exact hpd
    · simp only [Function.update_noteq hax]
      exact hI.debt_ge a
  · intro a
    by_cases hax : a = x
    · subst hax
      simp only [Function.update_same, ha]
      intro hfalse
      exact absurd hfalse (by simp)
    · simp only [Function.update_noteq hax]
      exact hI.inactive_zero a

theorem inv_repay {n : ℕ} {s s2 : PoolState n} {agent : Fin n}
    {amount now : ℕ} (h : repay s agent amount now = .ok s2)
    (hI : Inv s) : Inv s2 := by
  unfold repay at h
  split at h
  · exact Except.noConfusion h
  · rename_i hna
    have hact : (s.agents agent).active = true := by
      revert hna
      cases (s.agents agent).active <;> simp
    simp only [bind_ok_iff, uadd_ok_iff, usub_ok_iff, Except.ok.injEq] at h
    obtain ⟨⟨acc1, i⟩, hacc, gtd1, ⟨hg1, rfl⟩, iOwed, ⟨hio, rfl⟩, h⟩ := h
    try simp only at hg1 hio h
    obtain ⟨ha1, ha2, ha3, ha4, ha5, ha6, ha7⟩ := accrueInterest_spec hacc
    have hge := hI.debt_ge agent
    split at h <;> split at h <;>
      try simp only [bind_ok_iff, uadd_ok_iff, usub_ok_iff, Except.ok.injEq] at h
    · obtain ⟨d, ⟨hd1, rfl⟩, y, rfl, g2, ⟨hg21, rfl⟩, tl, ⟨htl1, rfl⟩, hstate⟩ := h
      subst hstate
      refine inv_account_update hI ?_ ?_ ?_ <;> try simp only
      · omega
      · omega
      · rw [ha6]
        exact hact
    · obtain ⟨pr, ⟨hpr1, rfl⟩, d, ⟨hd1, rfl⟩, p, ⟨hp1, rfl⟩, y, rfl,
        g2, ⟨hg21, rfl⟩, tl, ⟨htl1, rfl⟩, hstate⟩ := h
      subst hstate
      refine inv_account_update hI ?_ ?_ ?_ <;> try simp only
      · omega
      · omega
      · rw [ha6]
        exact hact
    · obtain ⟨d, ⟨hd1, rfl⟩, y, rfl, g2, ⟨hg21, rfl⟩, tl, ⟨htl1, rfl⟩, hstate⟩ := h
      subst hstate
      refine inv_account_update hI ?_ ?_ ?_ <;> try simp only
      · omega
      · omega
      · rw [ha6]
        exact hact
    · obtain ⟨pr, ⟨hpr1, rfl⟩, d, ⟨hd1, rfl⟩, p, ⟨hp1, rfl⟩, y, rfl,
        g2, ⟨hg21, rfl⟩, tl, ⟨htl1, rfl⟩, hstate⟩ := h
      subst hstate
      refine inv_account_update hI ?_ ?_ ?_ <;> try simp only
      · omega
      · omega
      · rw [ha6]
        exact hact

theorem inv_init (n : ℕ) : Inv (initState n) := by
  refine ⟨?_, ?_, ?_, ?_⟩ <;> simp [initState, sumShares, sumDebt]

theorem inv_stepOp {n : ℕ} (s : PoolState n) (op : Op n) (hI : Inv s) :
    Inv (stepOp s op) := by
  unfold stepOp
  cases hr : applyOp s op with
  | error e => exact hI
  | ok s2 =>
    cases op with
    | deposit sender assets =>
      unfold applyOp at hr
      simp only [bind_ok_iff, Except.ok.injEq] at hr
      obtain ⟨⟨s3, sh⟩, hd, heq⟩ := hr
      try simp only at heq
      subst heq
      exact inv_deposit hd hI
    | withdraw sender shares =>
      unfold applyOp at hr
      simp only [bind_ok_iff, Except.ok.injEq] at hr
      obtain ⟨⟨s3, assets⟩, hw, heq⟩ := hr
      try simp only at heq
      subst heq
      exact inv_withdraw hw hI
    | onboardAgent agent creditLimit now => exact inv_onboardAgent hr hI
    | setCreditLimit agent newLimit => exact inv_setCreditLimit hr hI
    | borrow agent amount now => exact inv_borrow hr hI
    | repay agent amount now => exact inv_repay hr hI
    | accrue agent now => exact inv_accrue hr hI
    | freeze agent => exact inv_freeze hr hI
    | unfreeze agent => exact inv_unfreeze hr hI

theorem inv_foldl {n : ℕ} (ops : List (Op n)) :
    ∀ s : PoolState n, Inv s → Inv (ops.foldl stepOp s) := by
  induction ops with
  | nil => exact fun s hI => hI
  | cons op ops ih => exact fun s hI => ih (stepOp s op) (inv_stepOp s op hI)

theorem inv_runOps (n : ℕ) (ops : List (Op n)) : Inv (runOps n ops) :=
  inv_foldl ops (initState n) (inv_init n)

/-!
Off-chain orchestration (agent/src/types.ts, `CredexClearing`) and the
reputation reader (agent/src/reputation.ts).  JavaScript `bigint` is
arbitrary precision and is modelled as `ℕ` (all the values involved are
non-negative); JavaScript floating-point reputation factors are modelled
as `ℚ` (all the factors the program produces are small exact decimals).
-/

/-- `INITIAL_LIMIT_BASE = 50_000n` (0.05 USDC base). -/
def INITIAL_LIMIT_BASE : ℕ := 50000

/-- `GROWTH_FACTOR_BP = 110` (1.1x). -/
def GROWTH_FACTOR_BP : ℕ := 110

/-- `MAX_LIMIT = 10_000n * 1_000_000n` (10,000 USDC cap). -/
def MAX_LIMIT : ℕ := 10000 * 1000000

/-- `calculateInitialLimit(repFactor)`:
`BigInt(Math.floor(repFactor * 100))`, then
`(INITIAL_LIMIT_BASE * factor) / 100n` in bigint division.  The program
only produces non-negative factors, for which `Int.toNat` of the floor
matches `BigInt` of `Math.floor`. -/
def calculateInitialLimit (repFactor : ℚ) : ℕ :=
  let factor := (⌊repFactor * 100⌋).toNat
  INITIAL_LIMIT_BASE * factor / 100

/-- `calculateGrowthLimit(currentLimit)`:
`(currentLimit * GROWTH_FACTOR_BP) / 100n`, capped at `MAX_LIMIT`. -/
def calculateGrowthLimit (currentLimit : ℕ) : ℕ :=
  let grown := currentLimit * GROWTH_FACTOR_BP / 100
  if grown > MAX_LIMIT then MAX_LIMIT else grown

/-- The credit-limit growth step of `handleRepay` (types.ts lines
274-283): after the on-chain repay succeeded, compute
`newLimit = calculateGrowthLimit(agent.creditLimit)` and call
`setCreditLimit` only when `newLimit > agent.creditLimit`.  Returns the
limit sent on-chain, `none` when no update transaction is issued. -/
def handleRepayLimitUpdate (currentLimit : ℕ) : Option ℕ :=
  let newLimit := calculateGrowthLimit currentLimit
  if newLimit > currentLimit then some newLimit else none

/-- `calculateReputationScore(agentId)` (reputation.ts): the mean of the
fetched feedback scores, `null` (here `none`) when there is no feedback. -/
def calculateReputationScore (scores : List ℕ) : Option ℚ :=
  if scores.isEmpty then none
  else some ((scores.sum : ℚ) / scores.length)

/-- `getRepFactorByAgentId(agentId)` (reputation.ts lines 189-213):
`1.0` for agentId 0 or no feedback, otherwise `score / 100` clamped to
`[0.1, 3.0]`.  `scores` is the feedback fetched for this agent. -/
def getRepFactorByAgentId (agentId : ℕ) (scores : List ℕ) : ℚ :=
  if agentId = 0 then 1
  else
    match calculateReputationScore scores with
    | none => 1
    | some score => max (1 / 10) (min 3 (score / 100))

/-- The `data` payload of a `CredexResponse` from `handleOnboard`: either
the existing state of an already-onboarded agent, or the outcome of a
fresh onboarding. -/
inductive OnboardData where
  | existing (debt creditLimit : ℕ)
  | onboarded (creditLimit : ℕ) (repFactor : ℚ)
deriving DecidableEq, Repr

/-- `CredexResponse`, restricted to the onboarding payloads. -/
structure CredexResponse where
  success : Bool
  message : String
  data : Option OnboardData
deriving DecidableEq, Repr

/-- `handleOnboard(agentAddress, agentId)` (types.ts lines 123-201).
`existing` is the on-chain state read through `poolClient.getAgent`;
`repFeed` is the result of `getRepFactorByAgentId` (`none` models the
inner `catch`: a reputation-feed error is swallowed and the default
factor `1.0` is kept); `poolCall` is the result of the
`poolClient.onboardAgent` transaction (`.error msg` models the outer
`catch`). -/
def handleOnboard (existing : AgentAccount) (repFeed : Option ℚ)
    (poolCall : Except String Unit) : CredexResponse :=
  if existing.active then
    { success := false, message := "Agent already onboarded",
      data := some (.existing existing.debt existing.creditLimit) }
  else
    let repFactor : ℚ := repFeed.getD 1
    let initialLimit := calculateInitialLimit repFactor
    match poolCall with
    | .error msg => { success := false, message := msg, data := none }
    | .ok _ =>
      { success := true, message := "Agent onboarded successfully",
        data := some (.onboarded initialLimit repFactor) }

/-!  Claim theorems. -/

/-- C8: after every successful repay the orchestrator computes
`newLimit = min(floor(currentLimit * 110 / 100), MAX_LIMIT)` and updates
the on-chain limit only when `newLimit` is strictly greater than the
current limit; the grown limit never exceeds `MAX_LIMIT`, and growing
from `MAX_LIMIT` yields `MAX_LIMIT`. -/
theorem claim_C8_limit_growth (l : ℕ) :
    calculateGrowthLimit l = min (l * GROWTH_FACTOR_BP / 100) MAX_LIMIT ∧
    calculateGrowthLimit l ≤ MAX_LIMIT ∧
    calculateGrowthLimit MAX_LIMIT = MAX_LIMIT ∧
    (l < calculateGrowthLimit l →
      handleRepayLimitUpdate l = some (calculateGrowthLimit l)) ∧
    (calculateGrowthLimit l ≤ l → handleRepayLimitUpdate l = none) := by
  refine ⟨?_, ?_, by decide, ?_, ?_⟩
  · dsimp only [calculateGrowthLimit]
    split <;> omega
  · dsimp only [calculateGrowthLimit]
    split <;> omega
  · intro hlt
    unfold handleRepayLimitUpdate
    rw [if_pos hlt]
  · intro hle
    unfold handleRepayLimitUpdate
    rw [if_neg (by omega)]

theorem claim_C8_limit_growth_witness :
    calculateGrowthLimit 50000 = 55000 ∧
    handleRepayLimitUpdate 50000 = some 55000 ∧
    handleRepayLimitUpdate MAX_LIMIT = none := by
  refine ⟨by decide, ?_, ?_⟩
  · have h := (claim_C8_limit_growth 50000).2.2.2.1 (by decide)
    rw [h]
    decide
  · exact (claim_C8_limit_growth MAX_LIMIT).2.2.2.2 (by decide)

/-- An agent account that the ledger already reports as active, used as
the concrete input for C9. -/
def c9ActiveAccount : AgentAccount :=
  { debt := 500000, principal := 500000, creditLimit := 50000,
    lastAccrued := 60, lastRepayment := 60, frozen := false, active := true }

/-- C9 counterexample: for an identity whose ledger state reports
`active = true`, `handleOnboard` returns a response with
`success = false` — a failure-flagged result, not the non-error
informational result the claim asserts. -/
theorem claim_C9_counterexample :
    c9ActiveAccount.active = true ∧
    (handleOnboard c9ActiveAccount (some 1) (.ok ())).success = false := by
  decide

/-- C9 (amended): for an identity whose ledger state already reports
`active = true`, `handleOnboard` returns a failure-flagged response
(`success = false`) with message "Agent already onboarded" that carries
the existing debt and credit limit as data, and does not re-onboard. -/
theorem claim_C9_amended (existing : AgentAccount) (repFeed : Option ℚ)
    (poolCall : Except String Unit) (hact : existing.active = true) :
    handleOnboard existing repFeed poolCall =
      { success := false, message := "Agent already onboarded",
        data := some (.existing existing.debt existing.creditLimit) } := by
  unfold handleOnboard
  rw [if_pos hact]

theorem claim_C9_amended_witness :
    handleOnboard c9ActiveAccount none (.ok ()) =
      { success := false, message := "Agent already onboarded",
        data := some (.existing 500000 50000) } :=
  claim_C9_amended c9ActiveAccount none (.ok ()) (by decide)

/-- An agent account the ledger reports as not yet onboarded, used as
the concrete input for C10. -/
def c10FreshAccount : AgentAccount :=
  { debt := 0, principal := 0, creditLimit := 0, lastAccrued := 0,
    lastRepayment := 0, frozen := false, active := false }

/-- C10 counterexample: the reputation factor obtained from feedback
scores 33 and 34 is 0.335, and the initial limit the orchestrator
computes for it is `(50000 * floor(0.335 * 100)) / 100 = 16500`, whereas
`floor(BASE_LIMIT * 0.335) = 16750` — the claimed formula
`floor(BASE_LIMIT * f)` does not match the code. -/
theorem claim_C10_counterexample :
    getRepFactorByAgentId 1 [33, 34] = 67 / 200 ∧
    calculateInitialLimit (getRepFactorByAgentId 1 [33, 34]) = 16500 ∧
    ⌊(INITIAL_LIMIT_BASE : ℚ) * getRepFactorByAgentId 1 [33, 34]⌋ = 16750 ∧
    (16500 : ℕ) ≠ 16750 := by
  refine ⟨by norm_num [getRepFactorByAgentId, calculateReputationScore], ?_, ?_, by decide⟩
  · norm_num [getRepFactorByAgentId, calculateReputationScore, calculateInitialLimit,
      INITIAL_LIMIT_BASE]
    decide
  · norm_num [getRepFactorByAgentId, calculateReputationScore, INITIAL_LIMIT_BASE]

/-- C10 (amended): `handleOnboard` sets the initial credit limit to
`(BASE_LIMIT * floor(100 * f)) / 100` in integer division; this equals
`floor(BASE_LIMIT * f)` whenever `100 * f` is an integer — in particular
a feed error defaults the factor to 1.0 and yields exactly `BASE_LIMIT`. -/
theorem claim_C10_amended (f : ℚ) (hf : 0 ≤ f) (acc : AgentAccount)
    (hact : acc.active = false) :
    calculateInitialLimit f = INITIAL_LIMIT_BASE * (⌊f * 100⌋).toNat / 100 ∧
    (∀ k : ℕ, f * 100 = (k : ℚ) →
      calculateInitialLimit f = (⌊(INITIAL_LIMIT_BASE : ℚ) * f⌋).toNat) ∧
    handleOnboard acc (some f) (.ok ()) =
      { success := true, message := "Agent onboarded successfully",
        data := some (.onboarded (calculateInitialLimit f) f) } ∧
    handleOnboard acc none (.ok ()) =
      { success := true, message := "Agent onboarded successfully",
        data := some (.onboarded INITIAL_LIMIT_BASE 1) } := by
  refine ⟨rfl, ?_, ?_, ?_⟩
  · intro k hk
    have hfk : f = (k : ℚ) / 100 := by
      field_simp
      linarith [hk]
    subst hfk
    have h1 : ((k : ℚ) / 100 * 100) = (k : ℚ) := by field_simp
    have h2 : ((INITIAL_LIMIT_BASE : ℚ) * ((k : ℚ) / 100)) = ((500 * k : ℕ) : ℚ) := by
      push_cast
      show (50000 : ℚ) * ((k : ℚ) / 100) = 500 * (k : ℚ)
      ring
    rw [h2]
    unfold calculateInitialLimit
    rw [h1]
    rw [Int.floor_natCast, Int.floor_natCast]
    simp only [Int.toNat_natCast]
    show INITIAL_LIMIT_BASE * k / 100 = 500 * k
    unfold INITIAL_LIMIT_BASE
    omega
  · unfold handleOnboard
    rw [if_neg (by rw [hact]; exact Bool.false_ne_true)]
    rfl
  · unfold handleOnboard
    rw [if_neg (by rw [hact]; exact Bool.false_ne_true)]
    have hc : calculateInitialLimit ((none : Option ℚ).getD 1) = INITIAL_LIMIT_BASE := by
      show calculateInitialLimit 1 = INITIAL_LIMIT_BASE
      unfold calculateInitialLimit INITIAL_LIMIT_BASE
      norm_num
      decide
    simp only [hc]
    rfl

theorem claim_C10_amended_witness :
    (0 : ℚ) ≤ 1 / 2 ∧
    c10FreshAccount.active = false ∧
    ((1 : ℚ) / 2) * 100 = ((50 : ℕ) : ℚ) ∧
    calculateInitialLimit (1 / 2) = (⌊(INITIAL_LIMIT_BASE : ℚ) * (1 / 2)⌋).toNat ∧
    calculateInitialLimit (1 / 2) = 25000 := by
  have h := (claim_C10_amended (1 / 2) (by norm_num) c10FreshAccount (by decide)).2.1
    50 (by norm_num)
  refine ⟨by norm_num, by decide, by norm_num, h, ?_⟩
  unfold calculateInitialLimit INITIAL_LIMIT_BASE
  norm_num
  decide

/-- C1: starting from the empty pool, after every finite sequence of
deposit, withdraw, onboardAgent, borrow, repay and interest-accrual
operations, the sum of the lpShares of all providers equals totalShares,
the global debt tracker equals the sum of the debt of all agents, and totalAssets
is exactly the checked sum of totalLiquidity and that debt sum. -/
theorem claim_C1_conservation (n : ℕ) (ops : List (Op n)) :
    (∑ a, (runOps n ops).lpShares a) = (runOps n ops).totalShares ∧
    (∑ a, ((runOps n ops).agents a).debt) = totalDebt (runOps n ops) ∧
    totalAssets (runOps n ops) =
      uadd (runOps n ops).totalLiquidity (∑ a, ((runOps n ops).agents a).debt) := by
  obtain ⟨h1, h2, h3, h4⟩ := inv_runOps n ops
  refine ⟨h1, h2, ?_⟩
  unfold totalAssets totalDebt
  unfold sumDebt at h2
  rw [h2]

/-- C4: every ledger operation applied to a state satisfying the
bookkeeping invariant preserves the per-account invariant
debt ≥ principal; it holds in every state reachable from the empty pool;
and onboarding creates the account with debt = principal = 0. -/
theorem claim_C4_debt_ge_principal (n : ℕ) (ops : List (Op n)) :
    (∀ a, ((runOps n ops).agents a).principal ≤ ((runOps n ops).agents a).debt) ∧
    (∀ (s : PoolState n) (op : Op n), Inv s →
      ∀ a, ((stepOp s op).agents a).principal ≤ ((stepOp s op).agents a).debt) ∧
    (∀ (s s2 : PoolState n) (agent : Fin n) (creditLimit now : ℕ),
      onboardAgent s agent creditLimit now = .ok s2 →
      (s2.agents agent).debt = 0 ∧ (s2.agents agent).principal = 0) := by
  refine ⟨(inv_runOps n ops).debt_ge, ?_, ?_⟩
  · intro s op hI a
    exact (inv_stepOp s op hI).debt_ge a
  · intro s s2 agent creditLimit now h
    unfold onboardAgent at h
    split at h
    · exact Except.noConfusion h
    · simp only [Except.ok.injEq] at h
      subst h
      simp [Function.update_same]

theorem claim_C4_debt_ge_principal_witness :
    ((runOps 1 [Op.onboardAgent 0 50 0]).agents 0).principal ≤
      ((runOps 1 [Op.onboardAgent 0 50 0]).agents 0).debt ∧
    ((stepOp (initState 1) (Op.deposit 0 100)).agents 0).principal ≤
      ((stepOp (initState 1) (Op.deposit 0 100)).agents 0).debt := by
  refine ⟨(claim_C4_debt_ge_principal 1 [Op.onboardAgent 0 50 0]).1 0, ?_⟩
  exact (claim_C4_debt_ge_principal 1 []).2.1 (initState 1) (Op.deposit 0 100)
    (inv_init 1) 0

/-- An active account with zero debt and a nonzero watermark, two full
intervals behind `now = 180`: the concrete input refuting C2. -/
def c2ZeroDebtAccount : AgentAccount :=
  { debt := 0, principal := 0, creditLimit := 1000000, lastAccrued := 60,
    lastRepayment := 60, frozen := false, active := true }

/-- C2 counterexample: at `now = 180` two full intervals have elapsed
(`intervals = 2 ≠ 0`), yet `_accrueInterest` leaves the zero-debt account
completely unchanged — `lastAccrued` stays 60 instead of advancing by
`intervals * ACCRUAL_INTERVAL` to 180 as the claim asserts for every
account. -/
theorem claim_C2_counterexample :
    (180 - c2ZeroDebtAccount.lastAccrued) / ACCRUAL_INTERVAL = 2 ∧
    accrueInterest c2ZeroDebtAccount 180 = .ok (c2ZeroDebtAccount, 0) ∧
    c2ZeroDebtAccount.lastAccrued ≠
      c2ZeroDebtAccount.lastAccrued + 2 * ACCRUAL_INTERVAL := by
  refine ⟨by decide, by decide, by decide⟩

/-- C2 (amended): for an account with nonzero debt and nonzero watermark
and `lastAccrued ≤ now`, with
`intervals = floor((now - lastAccrued) / ACCRUAL_INTERVAL)`: if
`intervals = 0` the account is unchanged; otherwise, on success, debt
grows by exactly `floor(debt * INTEREST_RATE_BP * intervals / 10000)`,
`lastAccrued` advances by exactly `intervals * ACCRUAL_INTERVAL` — never
snapped to `now`, so the sub-interval remainder is preserved — and every
other field is unchanged.  Accounts with zero debt or zero watermark are
left unchanged regardless of elapsed time. -/
theorem claim_C2_accrual_amended (acc : AgentAccount) (now : ℕ)
    (hla : acc.lastAccrued ≠ 0) (hdebt : acc.debt ≠ 0)
    (hle : acc.lastAccrued ≤ now) :
    ((now - acc.lastAccrued) / ACCRUAL_INTERVAL = 0 →
      accrueInterest acc now = .ok (acc, 0)) ∧
    (∀ acc2 i, accrueInterest acc now = .ok (acc2, i) →
      (now - acc.lastAccrued) / ACCRUAL_INTERVAL ≠ 0 →
      i = acc.debt * INTEREST_RATE_BP *
        ((now - acc.lastAccrued) / ACCRUAL_INTERVAL) / 10000 ∧
      acc2.debt = acc.debt + i ∧
      acc2.lastAccrued = acc.lastAccrued +
        ((now - acc.lastAccrued) / ACCRUAL_INTERVAL) * ACCRUAL_INTERVAL ∧
      now - acc2.lastAccrued = (now - acc.lastAccrued) % ACCRUAL_INTERVAL ∧
      acc2.principal = acc.principal ∧
      acc2.creditLimit = acc.creditLimit ∧
      acc2.lastRepayment = acc.lastRepayment ∧
      acc2.frozen = acc.frozen ∧
      acc2.active = acc.active) := by
  constructor
  · intro h0
    unfold accrueInterest
    rw [if_neg (by tauto)]
    simp [bind, Except.bind, usub, if_pos hle, h0]
  · intro acc2 i hacc hiv
    unfold accrueInterest at hacc
    rw [if_neg (by tauto)] at hacc
    simp only [bind_ok_iff, usub_ok_iff, umul_ok_iff, uadd_ok_iff,
      Except.ok.injEq, Prod.mk.injEq] at hacc
    obtain ⟨e, ⟨he, rfl⟩, hacc⟩ := hacc
    split at hacc
    · exact absurd (by assumption) hiv
    · simp only [bind_ok_iff, usub_ok_iff, umul_ok_iff, uadd_ok_iff,
        Except.ok.injEq, Prod.mk.injEq] at hacc
      obtain ⟨p1, ⟨hp1, rfl⟩, p2, ⟨hp2, rfl⟩, d, ⟨hd, rfl⟩, st, ⟨hst, rfl⟩,
        la, ⟨hla2, rfl⟩, rfl, rfl⟩ := hacc
      refine ⟨rfl, rfl, rfl, ?_, rfl, rfl, rfl, rfl, rfl⟩
      simp only [ACCRUAL_INTERVAL] at *
      omega

/-- The concrete account of the C2 quantization example: debt 50 USDC
(50_000000), watermark 60, queried one elapsed interval later. -/
def c2FiftyAccount : AgentAccount :=
  { debt := 50000000, principal := 50000000, creditLimit := 100000000,
    lastAccrued := 60, lastRepayment := 60, frozen := false, active := true }

theorem claim_C2_accrual_amended_witness :
    accrueInterest c2FiftyAccount 130 =
      .ok ({ c2FiftyAccount with debt := 50050000, lastAccrued := 120 }, 50000) ∧
    (50000 : ℕ) = c2FiftyAccount.debt * INTEREST_RATE_BP *
      ((130 - c2FiftyAccount.lastAccrued) / ACCRUAL_INTERVAL) / 10000 ∧
    ({ c2FiftyAccount with debt := 50050000, lastAccrued := 120 } :
      AgentAccount).lastAccrued = c2FiftyAccount.lastAccrued +
        ((130 - c2FiftyAccount.lastAccrued) / ACCRUAL_INTERVAL) * ACCRUAL_INTERVAL := by
  have happ := (claim_C2_accrual_amended c2FiftyAccount 130 (by decide) (by decide)
      (by decide)).2
    { c2FiftyAccount with debt := 50050000, lastAccrued := 120 } 50000
    (by decide) (by decide)
  exact ⟨by decide, happ.1, happ.2.2.1⟩

/-- C3: for every active account, after interest accrual `repay(amount)`
caps the effective amount at `min(amount, debt)` (overpayment silently
capped, never rejected); if the effective amount is at most
`interestOwed = debt - principal` then debt decreases by it and principal
is unchanged, otherwise debt decreases by the effective amount and
principal decreases by (effective amount - interestOwed); totalLiquidity
increases by the effective amount and lastRepayment is set to now. -/
theorem claim_C3_repay {n : ℕ} (s : PoolState n) (agent : Fin n)
    (amount now : ℕ) (acc1 : AgentAccount) (interest : ℕ) (s2 : PoolState n)
    (hact : (s.agents agent).active = true)
    (hacc : accrueInterest (s.agents agent) now = .ok (acc1, interest))
    (h : repay s agent amount now = .ok s2) :
    (s2.agents agent).debt = acc1.debt - min amount acc1.debt ∧
    (min amount acc1.debt ≤ acc1.debt - acc1.principal →
      (s2.agents agent).principal = acc1.principal) ∧
    (acc1.debt - acc1.principal < min amount acc1.debt →
      (s2.agents agent).principal =
        acc1.principal - (min amount acc1.debt - (acc1.debt - acc1.principal))) ∧
    s2.totalLiquidity = s.totalLiquidity + min amount acc1.debt ∧
    (s2.agents agent).lastRepayment = now := by
  unfold repay at h
  split at h
  · exact Except.noConfusion h
  · simp only [bind_ok_iff, uadd_ok_iff, usub_ok_iff, Except.ok.injEq] at h
    obtain ⟨⟨acc1x, ix⟩, haccx, gtd1, ⟨hg1, rfl⟩, iOwed, ⟨hio, rfl⟩, h⟩ := h
    rw [hacc] at haccx
    simp only [Except.ok.injEq, Prod.mk.injEq] at haccx
    obtain ⟨h1, h2⟩ := haccx
    subst h1
    subst h2
    try simp only at hg1 hio h
    by_cases hcap : acc1.debt < amount
    · have hmin : min amount acc1.debt = acc1.debt := by omega
      simp only [if_pos hcap] at h
      split at h <;>
        try simp only [bind_ok_iff, uadd_ok_iff, usub_ok_iff, Except.ok.injEq] at h
      · rename_i hbr
        obtain ⟨d, ⟨hd1, rfl⟩, y, rfl, g2, ⟨hg21, rfl⟩, tl, ⟨htl1, rfl⟩, hstate⟩ := h
        subst hstate
        refine ⟨?_, ?_, ?_, ?_, ?_⟩ <;>
          simp only [Function.update_same, hmin] <;> try simp only
        all_goals first
          | omega
          | exact fun _ => trivial
      · rename_i hbr
        obtain ⟨pr, ⟨hpr1, rfl⟩, d, ⟨hd1, rfl⟩, p, ⟨hp1, rfl⟩, y, rfl,
          g2, ⟨hg21, rfl⟩, tl, ⟨htl1, rfl⟩, hstate⟩ := h
        subst hstate
        refine ⟨?_, ?_, ?_, ?_, ?_⟩ <;>
          simp only [Function.update_same, hmin] <;> try simp only
        all_goals first
          | omega
          | exact fun _ => trivial
    · have hmin : min amount acc1.debt = amount := by omega
      simp only [if_neg hcap] at h
      split at h <;>
        try simp only [bind_ok_iff, uadd_ok_iff, usub_ok_iff, Except.ok.injEq] at h
      · rename_i hbr
        obtain ⟨d, ⟨hd1, rfl⟩, y, rfl, g2, ⟨hg21, rfl⟩, tl, ⟨htl1, rfl⟩, hstate⟩ := h
        subst hstate
        refine ⟨?_, ?_, ?_, ?_, ?_⟩ <;>
          simp only [Function.update_same, hmin] <;> try simp only
        all_goals first
          | omega
          | exact fun _ => trivial
      · rename_i hbr
        obtain ⟨pr, ⟨hpr1, rfl⟩, d, ⟨hd1, rfl⟩, p, ⟨hp1, rfl⟩, y, rfl,
          g2, ⟨hg21, rfl⟩, tl, ⟨htl1, rfl⟩, hstate⟩ := h
        subst hstate
        refine ⟨?_, ?_, ?_, ?_, ?_⟩ <;>
          simp only [Function.update_same, hmin] <;> try simp only
        all_goals first
          | omega
          | exact fun _ => trivial

/-- The one-agent pool of the C3 example: principal 20_000000, debt
20_050000 (interest owed 50000), enough pool liquidity. -/
def c3State : PoolState 1 :=
  { agents := fun _ =>
      { debt := 20050000, principal := 20000000, creditLimit := 100000000,
        lastAccrued := 60, lastRepayment := 60, frozen := false, active := true },
    lpShares := fun _ => 0,
    totalShares := 0, totalLiquidity := 1000000, globalTotalDebt := 20050000 }

theorem claim_C3_repay_witness :
    ((repay c3State 0 70000 60).isOk = true) ∧
    (∀ s2, repay c3State 0 70000 60 = .ok s2 →
      (s2.agents 0).debt = 19980000 ∧ (s2.agents 0).principal = 19980000 ∧
      s2.totalLiquidity = 1070000 ∧ (s2.agents 0).lastRepayment = 60) := by
  refine ⟨by decide, ?_⟩
  intro s2 h
  have happ := claim_C3_repay c3State 0 70000 60 (c3State.agents 0) 0 s2
    (by decide) (by decide) h
  obtain ⟨hc1, hc2, hc3, hc4, hc5⟩ := happ
  refine ⟨?_, ?_, ?_, ?_⟩
  · rw [hc1]
    decide
  · rw [hc3 (by decide)]
    decide
  · rw [hc4]
    decide
  · exact hc5

/-- Case split helper: a checked addition either succeeds or reverts
with the arithmetic panic. -/
theorem uadd_cases (a b : ℕ) :
    uadd a b = .error Err.arith ∨ ∃ c, uadd a b = .ok c := by
  unfold uadd
  split
  · exact Or.inr ⟨a + b, rfl⟩
  · exact Or.inl rfl

/-- C5: `availableCredit` returns 0 for an inactive or frozen account or
when creditLimit ≤ principal, and creditLimit - principal otherwise; and
`borrow` fails with ExceedsLimit exactly when principal + amount exceeds
creditLimit after accrual — headroom is governed by principal, not debt. -/
theorem claim_C5_availableCredit_borrow (acc : AgentAccount) {n : ℕ}
    (s : PoolState n) (agent : Fin n) (amount now : ℕ)
    (acc1 : AgentAccount) (interest : ℕ)
    (hact : (s.agents agent).active = true)
    (hfr : (s.agents agent).frozen = false)
    (hacc : accrueInterest (s.agents agent) now = .ok (acc1, interest))
    (hg : s.globalTotalDebt + interest < U256)
    (hpa : acc1.principal + amount < U256) :
    ((acc.active = false ∨ acc.frozen = true ∨ acc.creditLimit ≤ acc.principal) →
      availableCredit acc = 0) ∧
    (acc.active = true → acc.frozen = false → acc.principal < acc.creditLimit →
      availableCredit acc = acc.creditLimit - acc.principal) ∧
    (borrow s agent amount now = .error .exceedsLimit ↔
      acc1.creditLimit < acc1.principal + amount) := by
  refine ⟨?_, ?_, ?_⟩
  · intro hd
    unfold availableCredit
    rcases hd with h1 | h1 | h1 <;> simp [h1]
  · intro h1 h2 h3
    unfold availableCredit
    rw [h1, h2]
    have h4 : ¬ (acc.creditLimit ≤ acc.principal) := by omega
    simp [h4]
  · unfold borrow
    rw [if_neg (by rw [hact]; simp), if_neg (by rw [hfr]; simp)]
    rw [hacc]
    simp only [bind, Except.bind]
    rw [show uadd s.globalTotalDebt interest = .ok (s.globalTotalDebt + interest) from by
      unfold uadd; rw [if_pos hg]]
    rw [show uadd acc1.principal amount = .ok (acc1.principal + amount) from by
      unfold uadd; rw [if_pos hpa]]
    dsimp only
    constructor
    · intro he
      by_contra hnot
      rw [if_neg hnot] at he
      split at he
      · simp at he
      · rcases uadd_cases acc1.debt amount with hnd | ⟨nd, hnd⟩ <;> rw [hnd] at he
        · simp at he
        · rcases uadd_cases (s.globalTotalDebt + interest) amount with hg2 | ⟨g2, hg2⟩ <;>
            rw [hg2] at he <;> simp at he
    · intro hlt
      rw [if_pos hlt]

/-- The one-agent pool of the C5 borrow example: creditLimit 50 USDC,
principal 0; borrowing 51 USDC must fail with ExceedsLimit. -/
def c5State : PoolState 1 :=
  { agents := fun _ =>
      { debt := 0, principal := 0, creditLimit := 50000000,
        lastAccrued := 60, lastRepayment := 60, frozen := false, active := true },
    lpShares := fun _ => 100000000,
    totalShares := 100000000, totalLiquidity := 100000000, globalTotalDebt := 0 }

theorem claim_C5_availableCredit_borrow_witness :
    availableCredit (c5State.agents 0) = 50000000 ∧
    (borrow c5State 0 51000000 60 = .error .exceedsLimit ↔
      (50000000 : ℕ) < 0 + 51000000) ∧
    borrow c5State 0 51000000 60 = .error .exceedsLimit := by
  have happ := claim_C5_availableCredit_borrow (c5State.agents 0) c5State 0 51000000 60
    (c5State.agents 0) 0 (by decide) (by decide) (by decide) (by decide) (by decide)
  refine ⟨?_, happ.2.2, ?_⟩
  · rw [happ.2.1 (by decide) (by decide) (by decide)]
    decide
  · exact happ.2.2.mpr (by decide)

/-- C6: deposit(0) fails with the zero-amount revert; a successful
deposit mints exactly `amount` shares when totalShares = 0 (seed 1:1) and
exactly `floor(amount * totalShares / totalAssets)` shares otherwise,
credits them to the caller, and increases totalLiquidity by the amount. -/
theorem claim_C6_deposit {n : ℕ} (s : PoolState n) (sender : Fin n)
    (assets : ℕ) :
    deposit s sender 0 = .error .zeroAmount ∧
    (∀ s2 sh, deposit s sender assets = .ok (s2, sh) →
      (s.totalShares = 0 → sh = assets) ∧
      (s.totalShares ≠ 0 →
        sh = assets * s.totalShares / (s.totalLiquidity + totalDebt s)) ∧
      s2.lpShares sender = s.lpShares sender + sh ∧
      s2.totalShares = s.totalShares + sh ∧
      s2.totalLiquidity = s.totalLiquidity + assets) := by
  constructor
  · unfold deposit
    rw [if_pos rfl]
  · intro s2 sh h
    unfold deposit at h
    split at h
    · exact Except.noConfusion h
    · simp only [bind_ok_iff, totalAssets, totalDebt, uadd_ok_iff,
        Except.ok.injEq, Prod.mk.injEq] at h
      obtain ⟨ta, ⟨hta, rfl⟩, h⟩ := h
      split at h
      · rename_i h0
        simp only [bind_ok_iff, uadd_ok_iff, Except.ok.injEq, Prod.mk.injEq] at h
        obtain ⟨y, rfl, lp, ⟨hl1, rfl⟩, ts, ⟨ht1, rfl⟩, tl, ⟨hw1, rfl⟩,
          hstate, hval⟩ := h
        subst hstate
        subst hval
        refine ⟨fun _ => rfl, fun hne => absurd h0 hne, ?_, ?_, ?_⟩ <;>
          simp [Function.update_same]
      · rename_i h0
        simp only [bind_ok_iff, uadd_ok_iff, umul_ok_iff, udiv_ok_iff,
          Except.ok.injEq, Prod.mk.injEq] at h
        obtain ⟨p, ⟨hp1, rfl⟩, y, ⟨hdv1, rfl⟩, lp, ⟨hl1, rfl⟩, ts, ⟨ht1, rfl⟩,
          tl, ⟨hw1, rfl⟩, hstate, hval⟩ := h
        subst hstate
        subst hval
        refine ⟨fun hz => absurd hz h0, fun _ => rfl, ?_, ?_, ?_⟩ <;>
          simp [Function.update_same]

/-- The proportional-deposit pool of the C6 example: totalShares 100,
totalAssets 200, no outstanding debt. -/
def c6State : PoolState 1 :=
  { agents := fun _ =>
      { debt := 0, principal := 0, creditLimit := 0, lastAccrued := 0,
        lastRepayment := 0, frozen := false, active := false },
    lpShares := fun _ => 100,
    totalShares := 100, totalLiquidity := 200, globalTotalDebt := 0 }

theorem claim_C6_deposit_witness :
    deposit c6State 0 0 = .error .zeroAmount ∧
    ((deposit c6State 0 50).isOk = true) ∧
    (∀ s2 sh, deposit c6State 0 50 = .ok (s2, sh) →
      sh = 25 ∧ s2.totalShares = 125 ∧ s2.totalLiquidity = 250) := by
  refine ⟨(claim_C6_deposit c6State 0 50).1, by decide, ?_⟩
  intro s2 sh h
  have happ := (claim_C6_deposit c6State 0 50).2 s2 sh h
  obtain ⟨hc1, hc2, hc3, hc4, hc5⟩ := happ
  have hsh : sh = 25 := by
    rw [hc2 (by decide)]
    decide
  refine ⟨hsh, ?_, ?_⟩
  · rw [hc4, hsh]
    decide
  · rw [hc5]
    decide

/-- C7: withdraw(0) fails with the zero-shares revert; withdraw fails
with InsufficientShares when the caller holds fewer shares than
requested; with assets = floor(shares * totalAssets / totalShares) it
fails with the pool-liquidity revert whenever assets > totalLiquidity
even though the share balance is sufficient; and on success it decreases
the shares of the caller, totalShares and totalLiquidity by exactly shares,
shares and assets. -/
theorem claim_C7_withdraw {n : ℕ} (s : PoolState n) (sender : Fin n)
    (shares : ℕ) :
    withdraw s sender 0 = .error .zeroShares ∧
    (shares ≠ 0 → s.lpShares sender < shares →
      withdraw s sender shares = .error .insufficientShares) ∧
    (shares ≠ 0 → shares ≤ s.lpShares sender →
      s.totalLiquidity + totalDebt s < U256 →
      shares * (s.totalLiquidity + totalDebt s) < U256 →
      s.totalShares ≠ 0 →
      s.totalLiquidity < shares * (s.totalLiquidity + totalDebt s) / s.totalShares →
      withdraw s sender shares = .error .insufficientPoolLiquidity) ∧
    (∀ s2 assets, withdraw s sender shares = .ok (s2, assets) →
      assets = shares * (s.totalLiquidity + totalDebt s) / s.totalShares ∧
      s2.lpShares sender = s.lpShares sender - shares ∧
      s2.totalShares = s.totalShares - shares ∧
      s2.totalLiquidity = s.totalLiquidity - assets) := by
  refine ⟨?_, ?_, ?_, ?_⟩
  · unfold withdraw
    rw [if_pos rfl]
  · intro hne hlt
    unfold withdraw
    rw [if_neg hne, if_pos hlt]
  · intro hne hge hta hmul hts hlq
    unfold withdraw
    rw [if_neg hne, if_neg (by omega)]
    rw [show totalAssets s = .ok (s.totalLiquidity + totalDebt s) from by
      unfold totalAssets uadd; rw [if_pos hta]]
    dsimp only [bind, Except.bind]
    rw [show umul shares (s.totalLiquidity + totalDebt s) =
        .ok (shares * (s.totalLiquidity + totalDebt s)) from by
      unfold umul; rw [if_pos hmul]]
    dsimp only [bind, Except.bind]
    rw [show udiv (shares * (s.totalLiquidity + totalDebt s)) s.totalShares =
        .ok (shares * (s.totalLiquidity + totalDebt s) / s.totalShares) from by
      unfold udiv; rw [if_neg hts]]
    dsimp only [bind, Except.bind]
    rw [if_pos hlq]
  · intro s2 assets h
    unfold withdraw at h
    split at h
    · exact Except.noConfusion h
    · split at h
      · exact Except.noConfusion h
      · simp only [bind_ok_iff, totalAssets, totalDebt, uadd_ok_iff, umul_ok_iff,
          udiv_ok_iff, Except.ok.injEq, Prod.mk.injEq] at h
        obtain ⟨ta, ⟨hta, rfl⟩, p, ⟨hp, rfl⟩, av, ⟨hts0, rfl⟩, h⟩ := h
        split at h
        · exact Except.noConfusion h
        · simp only [bind_ok_iff, usub_ok_iff, Except.ok.injEq, Prod.mk.injEq] at h
          obtain ⟨ts, ⟨htsle, rfl⟩, hstate, hval⟩ := h
          subst hstate
          subst hval
          refine ⟨rfl, ?_, rfl, rfl⟩
          simp [Function.update_same]

/-- The locked-liquidity pool of the C7 example: the provider holds all
100 shares but 60 of the 100 asset units are out as debt, so only 40
units of cash remain. -/
def c7State : PoolState 1 :=
  { agents := fun _ =>
      { debt := 60, principal := 60, creditLimit := 100, lastAccrued := 60,
        lastRepayment := 60, frozen := false, active := true },
    lpShares := fun _ => 100,
    totalShares := 100, totalLiquidity := 40, globalTotalDebt := 60 }

theorem claim_C7_withdraw_witness :
    (100 : ℕ) = c7State.lpShares 0 ∧
    withdraw c7State 0 50 = .error .insufficientPoolLiquidity ∧
    (∀ s2 assets, withdraw c7State 0 30 = .ok (s2, assets) →
      assets = 30 ∧ s2.totalShares = 70 ∧ s2.totalLiquidity = 10) := by
  refine ⟨by decide, ?_, ?_⟩
  · exact (claim_C7_withdraw c7State 0 50).2.2.1 (by decide) (by decide)
      (by decide) (by decide) (by decide) (by decide)
  · intro s2 assets h
    have happ := (claim_C7_withdraw c7State 0 30).2.2.2 s2 assets h
    obtain ⟨hc1, hc2, hc3, hc4⟩ := happ
    have has : assets = 30 := by
      rw [hc1]
      decide
    refine ⟨has, ?_, ?_⟩
    · rw [hc3]
      decide
    · rw [hc4, has]
      decide

end Credex
